import Mathlib

/-!
Verification of the loan interest-accrual engine of this repository.

The embedding below follows the function `generateLedger` of
`src/LoanLedger.jsx` together with its helpers `parseDate`,
`getDaysInYear` and `calculateSimpleInterest`.

Modelling conventions:
- Calendar dates are day ordinals (`Nat`), the number of days since the
  epoch 0000-03-01 of the proleptic Gregorian calendar.  `toOrd` and
  `fromOrd` convert between `(year, month, day)` triples and ordinals
  using the standard civil-calendar algorithms.  A JavaScript `Date`
  normalised with `startOfDay` is exactly a day ordinal, and comparison
  helpers `isAfter`, `isBefore`, `isSameDay` become `<`, `>`, `=` on
  ordinals; `differenceInDays` becomes ordinal subtraction.
- Money amounts and rates are rationals, modelling exact real
  arithmetic on JavaScript numbers.
- The `customer.iclStartDate` field is `Option Nat`: `none` models a
  start-date string that is missing or that `parseDate` rejects
  (`parseDate` returns `null` in both cases, and `generateLedger`
  treats both the same way through its falsiness check).
- The wall-clock read `startOfDay(new Date())` on line 58 of the source
  is made explicit as the `today` argument of `generateLedger`; the
  source has no such parameter and reads the clock inside the function.
-/

/-- Days-from-civil conversion: the ordinal of the day `(y, m, d)`,
counting from the epoch 0000-03-01, valid for years from 1 on.  This is
the standard civil-calendar algorithm, matching what a JavaScript
`Date` value normalised to the start of its day denotes. -/
def toOrd (y m d : Nat) : Nat :=
  let yAdj := if m ≤ 2 then y - 1 else y
  let era := yAdj / 400
  let yoe := yAdj % 400
  let mp := if 2 < m then m - 3 else m + 9
  let doy := (153 * mp + 2) / 5 + (d - 1)
  let doe := yoe * 365 + yoe / 4 - yoe / 100 + doy
  era * 146097 + doe

/-- Civil-from-days conversion, inverse of `toOrd` on valid dates. -/
def fromOrd (z : Nat) : Nat × Nat × Nat :=
  let era := z / 146097
  let doe := z % 146097
  let yoe := (doe - doe / 1460 + doe / 36524 - doe / 146096) / 365
  let y := yoe + era * 400
  let doy := doe - (365 * yoe + yoe / 4 - yoe / 100)
  let mp := (5 * doy + 2) / 153
  let d := doy - (153 * mp + 2) / 5 + 1
  let m := if mp < 10 then mp + 3 else mp - 9
  (if m ≤ 2 then y + 1 else y, m, d)

/-- Calendar year of a day ordinal; models `getYear` of date-fns. -/
def getYear (z : Nat) : Nat := (fromOrd z).1

/-- Last day of the calendar quarter containing the given day; models
`endOfQuarter` of date-fns (Mar 31 / Jun 30 / Sep 30 / Dec 31). -/
def endOfQuarter (z : Nat) : Nat :=
  match fromOrd z with
  | (y, m, _) =>
    if m ≤ 3 then toOrd y 3 31
    else if m ≤ 6 then toOrd y 6 30
    else if m ≤ 9 then toOrd y 9 30
    else toOrd y 12 31

/-- Source `getDaysInYear` (lines 12-14): 366 for Gregorian leap years,
365 otherwise. -/
def getDaysInYear (year : Nat) : ℚ :=
  if (year % 4 = 0 ∧ year % 100 ≠ 0) ∨ year % 400 = 0 then 366 else 365

/-- Source `calculateSimpleInterest` (lines 16-19): zero when the
principal or the day count is non-positive, otherwise
`principal * rate * days / (100 * daysInYear)`. -/
def calculateSimpleInterest (principal rate days : ℚ) (year : Nat) : ℚ :=
  if principal ≤ 0 ∨ days ≤ 0 then 0
  else principal * rate * days / (100 * getDaysInYear year)

/-- Interest method of an account, the `interestMethod` field. -/
inductive Method where
  | Simple
  | Compound
deriving DecidableEq, Repr

/-- Account terms, the `customer` record consumed by `generateLedger`.
`iclStartDate = none` models a missing or unparseable start date. -/
structure Customer where
  iclStartDate : Option Nat
  iclEndDate : Option Nat
  interestMethod : Method
  interestRate : ℚ
  tdsRate : ℚ
deriving DecidableEq, Repr

/-- One cash movement: `date`, amount `paid` in, amount `repaid` out. -/
structure Tx where
  date : Nat
  paid : ℚ
  repaid : ℚ
deriving DecidableEq, Repr

/-- One output ledger row, the object pushed on lines 102-109 and
115-120 of the source. -/
structure Row where
  date : Nat
  description : String
  paid : ℚ
  repaid : ℚ
  principal : ℚ
  interest : ℚ
  tds : ℚ
  netInterest : ℚ
  cumulativeInterest : ℚ
deriving DecidableEq, Repr

instance : Inhabited Row :=
  ⟨{ date := 0, description := "", paid := 0, repaid := 0, principal := 0,
     interest := 0, tds := 0, netInterest := 0, cumulativeInterest := 0 }⟩

/-- Sum of `paid` over the transactions dated `d` (lines 83-91). -/
def paidOn (txs : List Tx) (d : Nat) : ℚ :=
  ((txs.filter fun t => t.date = d).map Tx.paid).sum

/-- Sum of `repaid` over the transactions dated `d` (lines 83-91). -/
def repaidOn (txs : List Tx) (d : Nat) : ℚ :=
  ((txs.filter fun t => t.date = d).map Tx.repaid).sum

/-- Length in days of the accrual period starting at event `d`: the gap
to the next event, or a fixed 1-day stub for the last event (line 96). -/
def periodDays (d : Nat) (rest : List Nat) : ℚ :=
  match rest with
  | [] => 1
  | next :: _ => (next : ℚ) - (d : ℚ)

/-- Row description chosen on line 104: Deposit takes precedence over
Repayment, otherwise the row is a pure interest period. -/
def descFor (paidToday repaidToday : ℚ) : String :=
  if 0 < paidToday then "Deposit"
  else if 0 < repaidToday then "Repayment"
  else "Interest Period"

/-- The single row emitted for an event date (lines 94-109): the net
transaction effect is applied to the running principal, then interest
for the period up to the next event is accrued on the updated
principal, net of TDS, and added to the running cumulative total. -/
def mkEventRow (c : Customer) (txs : List Tx) (d : Nat) (rest : List Nat)
    (P cum : ℚ) : Row :=
  let paidToday := paidOn txs d
  let repaidToday := repaidOn txs d
  let principalAfter := P + paidToday - repaidToday
  let interest := calculateSimpleInterest principalAfter c.interestRate
    (periodDays d rest) (getYear d)
  let tds := interest * (c.tdsRate / 100)
  let net := interest - tds
  { date := d
    description := descFor paidToday repaidToday
    paid := paidToday
    repaid := repaidToday
    principal := principalAfter
    interest := interest
    tds := tds
    netInterest := net
    cumulativeInterest := cum + net }

/-- The capitalization row emitted on lines 114-120: the cumulative net
interest is folded into the principal; the row records the new
principal and the cumulative total as it stood before the reset. -/
def mkCapRow (d : Nat) (P cum : ℚ) : Row :=
  { date := d
    description := "Quarterly Interest Capitalized"
    paid := 0
    repaid := 0
    principal := P + cum
    interest := 0
    tds := 0
    netInterest := 0
    cumulativeInterest := cum }

/-- The main loop of `generateLedger` (lines 79-123): one forward pass
over the event dates carrying running principal and cumulative net
interest.  Each event emits its combined row; when the event date is a
quarter end on or after the start date, the method is Compound and the
cumulative net interest is positive, a capitalization row follows and
the cumulative total resets to zero. -/
def processEvents (c : Customer) (iclStart : Nat) (txs : List Tx) :
    List Nat → ℚ → ℚ → List Row
  | [], _, _ => []
  | d :: rest, P, cum =>
    if d = endOfQuarter d ∧ iclStart ≤ d ∧
        c.interestMethod = Method.Compound ∧
        0 < (mkEventRow c txs d rest P cum).cumulativeInterest then
      mkEventRow c txs d rest P cum ::
        mkCapRow d (mkEventRow c txs d rest P cum).principal
          (mkEventRow c txs d rest P cum).cumulativeInterest ::
        processEvents c iclStart txs rest
          ((mkEventRow c txs d rest P cum).principal +
            (mkEventRow c txs d rest P cum).cumulativeInterest) 0
    else
      mkEventRow c txs d rest P cum ::
        processEvents c iclStart txs rest
          (mkEventRow c txs d rest P cum).principal
          (mkEventRow c txs d rest P cum).cumulativeInterest

/-- The quarter-end generation loop (lines 60-67): starting from the
first transaction date, each step adds the end of the current quarter
when it lies between the first transaction date and the horizon, then
jumps to the first day of the next quarter.  The fuel argument bounds
the iteration count; the loop advances at least one day per step, so
`last + 2 - first` steps always suffice. -/
def quarterEndsAux (firstTx last : Nat) : Nat → Nat → List Nat
  | 0, _ => []
  | fuel + 1, cur =>
    if cur ≤ last then
      if endOfQuarter cur ≤ last ∧ firstTx ≤ endOfQuarter cur then
        endOfQuarter cur :: quarterEndsAux firstTx last fuel (endOfQuarter cur + 1)
      else
        quarterEndsAux firstTx last fuel (endOfQuarter cur + 1)
    else []

/-- All quarter-end event dates produced by the loop of lines 60-67. -/
def quarterEndsList (firstTx last : Nat) : List Nat :=
  quarterEndsAux firstTx last (last + 2 - firstTx) firstTx

/-- The transaction filter of lines 43-47: keep a transaction unless an
end date is set and the transaction is dated strictly after it. -/
def filterByEnd (c : Customer) (txs : List Tx) : List Tx :=
  txs.filter fun t =>
    match c.iclEndDate with
    | some e => decide (t.date ≤ e)
    | none => true

/-- Comparison used to sort transactions by date (line 48). -/
def txLe (a b : Tx) : Prop := a.date ≤ b.date

instance : DecidableRel txLe := fun a b => Nat.decLe a.date b.date

instance : IsTotal Tx txLe := ⟨fun a b => Nat.le_total a.date b.date⟩

instance : IsTrans Tx txLe := ⟨fun _ _ _ h1 h2 => Nat.le_trans h1 h2⟩

/-- Source `generateLedger` (lines 35-126).  Early returns: a missing
start date, a falsy (zero) interest rate or an empty transaction list
yield the empty ledger (lines 39-41), as does an empty filtered list
(lines 50-52).  Otherwise the event timeline merges transaction dates,
quarter ends and the optional end date, deduplicated and sorted, and
the accrual loop produces the rows.  The `today` argument models the
wall-clock read `startOfDay(new Date())` of line 58, used as the
horizon only when no end date is set. -/
def generateLedger (customer : Customer) (transactions : List Tx)
    (today : Nat) : List Row :=
  match customer.iclStartDate with
  | none => []
  | some iclStart =>
    if customer.interestRate = 0 ∨ transactions = [] then []
    else
      match (filterByEnd customer transactions).insertionSort txLe with
      | [] => []
      | t0 :: ts =>
        let lastPossibleDate := customer.iclEndDate.getD today
        let eventDates :=
          ((t0 :: ts).map Tx.date) ++
            quarterEndsList t0.date lastPossibleDate ++
            (match customer.iclEndDate with | some e => [e] | none => [])
        let uniqueSortedDates := eventDates.dedup.insertionSort (· ≤ ·)
        processEvents customer iclStart (t0 :: ts) uniqueSortedDates 0 0

/-- Rounding to two decimals, half away from zero on non-negative
values; models the display rounding the spec uses in its numeric
examples. -/
def roundTo2 (x : ℚ) : ℚ := ((⌊x * 100 + 1 / 2⌋ : ℤ) : ℚ) / 100

def cCompound : Customer :=
  { iclStartDate := some 738916, iclEndDate := none,
    interestMethod := Method.Compound, interestRate := 12, tdsRate := 10 }

def txDeposit : Tx := { date := 738916, paid := 100000, repaid := 0 }

def rowDep : Row :=
  { date := 738916, description := "Deposit", paid := 100000, repaid := 0,
    principal := 100000, interest := 216000 / 73, tds := 21600 / 73,
    netInterest := 194400 / 73, cumulativeInterest := 194400 / 73 }

def rowStub : Row :=
  { date := 739006, description := "Interest Period", paid := 0, repaid := 0,
    principal := 100000, interest := 2400 / 73, tds := 240 / 73,
    netInterest := 2160 / 73, cumulativeInterest := 196560 / 73 }

def rowCap : Row :=
  { date := 739006, description := "Quarterly Interest Capitalized",
    paid := 0, repaid := 0, principal := 7496560 / 73, interest := 0,
    tds := 0, netInterest := 0, cumulativeInterest := 196560 / 73 }

def rowDepShort : Row :=
  { date := 738916, description := "Deposit", paid := 100000, repaid := 0,
    principal := 100000, interest := 2400 / 73, tds := 240 / 73,
    netInterest := 2160 / 73, cumulativeInterest := 2160 / 73 }

def cOverRepay : Customer :=
  { iclStartDate := some 738826, iclEndDate := some 738835,
    interestMethod := Method.Simple, interestRate := 12, tdsRate := 0 }

def txRepay : Tx := { date := 738830, paid := 0, repaid := 100 }

def rowRepay : Row :=
  { date := 738830, description := "Repayment", paid := 0, repaid := 100,
    principal := -100, interest := 0, tds := 0, netInterest := 0,
    cumulativeInterest := 0 }

def rowRepayStub : Row :=
  { date := 738835, description := "Interest Period", paid := 0, repaid := 0,
    principal := -100, interest := 0, tds := 0, netInterest := 0,
    cumulativeInterest := 0 }

def cNegRate : Customer :=
  { iclStartDate := some 738826, iclEndDate := some 738835,
    interestMethod := Method.Simple, interestRate := -12, tdsRate := 0 }

def txHundred : Tx := { date := 738830, paid := 100, repaid := 0 }

def rowNegOne : Row :=
  { date := 738830, description := "Deposit", paid := 100, repaid := 0,
    principal := 100, interest := -12 / 73, tds := 0,
    netInterest := -12 / 73, cumulativeInterest := -12 / 73 }

def rowNegTwo : Row :=
  { date := 738835, description := "Interest Period", paid := 0, repaid := 0,
    principal := 100, interest := -12 / 365, tds := 0,
    netInterest := -12 / 365, cumulativeInterest := -72 / 365 }

def cShortWindow : Customer :=
  { iclStartDate := some 738826, iclEndDate := some 738835,
    interestMethod := Method.Compound, interestRate := 12, tdsRate := 10 }

def txAfterEnd : Tx := { date := 738857, paid := 50, repaid := 0 }

def cZeroRate : Customer :=
  { iclStartDate := some 738826, iclEndDate := none,
    interestMethod := Method.Compound, interestRate := 0, tdsRate := 10 }

def cSimpleMode : Customer :=
  { iclStartDate := some 738916, iclEndDate := none,
    interestMethod := Method.Simple, interestRate := 12, tdsRate := 10 }

def cStartNone : Customer :=
  { iclStartDate := none, iclEndDate := none,
    interestMethod := Method.Compound, interestRate := 12, tdsRate := 10 }

/-- Calendar sanity: conversion round trip on a leap day. -/
theorem fromOrd_toOrd_leap : fromOrd (toOrd 2024 2 29) = (2024, 2, 29) := by
  decide

/-- Calendar sanity: conversion round trip on a year end. -/
theorem fromOrd_toOrd_yearEnd : fromOrd (toOrd 2023 12 31) = (2023, 12, 31) := by
  decide

/-- Calendar sanity: the quarter containing April 1 ends on June 30. -/
theorem endOfQuarter_apr : endOfQuarter (toOrd 2023 4 1) = toOrd 2023 6 30 := by
  decide

/-- Calendar sanity: day difference across the second quarter of 2023. -/
theorem daysAcrossQ2 : toOrd 2023 6 30 - toOrd 2023 4 1 = 90 := by
  decide

/-- Unfolding equation for one step of the accrual loop. -/
theorem processEvents_cons_eq (c : Customer) (iS : Nat) (txs : List Tx)
    (d : Nat) (rest : List Nat) (P cum : ℚ) :
    processEvents c iS txs (d :: rest) P cum =
      if d = endOfQuarter d ∧ iS ≤ d ∧
          c.interestMethod = Method.Compound ∧
          0 < (mkEventRow c txs d rest P cum).cumulativeInterest then
        mkEventRow c txs d rest P cum ::
          mkCapRow d (mkEventRow c txs d rest P cum).principal
            (mkEventRow c txs d rest P cum).cumulativeInterest ::
          processEvents c iS txs rest
            ((mkEventRow c txs d rest P cum).principal +
              (mkEventRow c txs d rest P cum).cumulativeInterest) 0
      else
        mkEventRow c txs d rest P cum ::
          processEvents c iS txs rest
            (mkEventRow c txs d rest P cum).principal
            (mkEventRow c txs d rest P cum).cumulativeInterest := rfl

theorem mkEventRow_date (c : Customer) (txs : List Tx) (d : Nat)
    (rest : List Nat) (P cum : ℚ) :
    (mkEventRow c txs d rest P cum).date = d := rfl

theorem mkEventRow_desc (c : Customer) (txs : List Tx) (d : Nat)
    (rest : List Nat) (P cum : ℚ) :
    (mkEventRow c txs d rest P cum).description =
      descFor (paidOn txs d) (repaidOn txs d) := rfl

theorem mkEventRow_cum (c : Customer) (txs : List Tx) (d : Nat)
    (rest : List Nat) (P cum : ℚ) :
    (mkEventRow c txs d rest P cum).cumulativeInterest =
      cum + (mkEventRow c txs d rest P cum).netInterest := rfl

/-- The three descriptions an event row can carry are never the
capitalization description. -/
theorem descFor_ne_cap (p q : ℚ) :
    descFor p q ≠ "Quarterly Interest Capitalized" := by
  unfold descFor
  split
  · decide
  · split <;> decide

/-- The first row emitted for a nonempty event list is always the
combined event row of the first event. -/
theorem processEvents_head_eq (c : Customer) (iS : Nat) (txs : List Tx)
    (d : Nat) (rest : List Nat) (P cum : ℚ) (y : Row)
    (hy : y ∈ (processEvents c iS txs (d :: rest) P cum).head?) :
    y = mkEventRow c txs d rest P cum := by
  rw [processEvents_cons_eq] at hy
  split at hy <;>
  · simp only [List.head?_cons, Option.mem_def, Option.some.injEq] at hy
    exact hy.symm

/-- Capitalization adjacency invariant of the loop: a capitalization
row records the sum of the previous row's principal and cumulative
total, and the row following a capitalization row restarts the
cumulative total from zero. -/
theorem processEvents_chain_cap (c : Customer) (iS : Nat) (txs : List Tx)
    (dates : List Nat) : ∀ P cum : ℚ,
    List.Chain' (fun a b =>
      (b.description = "Quarterly Interest Capitalized" →
        b.principal = a.principal + a.cumulativeInterest) ∧
      (a.description = "Quarterly Interest Capitalized" →
        b.cumulativeInterest = b.netInterest))
      (processEvents c iS txs dates P cum) := by
  induction dates with
  | nil => intro P cum; simp [processEvents]
  | cons d rest ih =>
    intro P cum
    rw [processEvents_cons_eq]
    split
    · refine List.chain'_cons.mpr ⟨⟨fun _ => rfl, fun hca => ?_⟩, ?_⟩
      · exact absurd hca (by rw [mkEventRow_desc]; exact descFor_ne_cap _ _)
      · refine List.chain'_cons'.mpr ⟨?_, ih _ _⟩
        intro y hy
        cases rest with
        | nil => simp [processEvents] at hy
        | cons d2 rest2 =>
          have hyeq := processEvents_head_eq c iS txs d2 rest2 _ 0 y hy
          constructor
          · intro hcap
            exact absurd hcap
              (by rw [hyeq, mkEventRow_desc]; exact descFor_ne_cap _ _)
          · intro _
            rw [hyeq, mkEventRow_cum, zero_add]
    · refine List.chain'_cons'.mpr ⟨?_, ih _ _⟩
      intro y hy
      cases rest with
      | nil => simp [processEvents] at hy
      | cons d2 rest2 =>
        have hyeq := processEvents_head_eq c iS txs d2 rest2 _ _ y hy
        constructor
        · intro hcap
          exact absurd hcap
            (by rw [hyeq, mkEventRow_desc]; exact descFor_ne_cap _ _)
        · intro hca
          exact absurd hca
            (by rw [mkEventRow_desc]; exact descFor_ne_cap _ _)

/-- The first row of a loop run never carries the capitalization
description. -/
theorem processEvents_head_not_cap (c : Customer) (iS : Nat)
    (txs : List Tx) (dates : List Nat) (P cum : ℚ) (y : Row)
    (hy : y ∈ (processEvents c iS txs dates P cum).head?) :
    y.description ≠ "Quarterly Interest Capitalized" := by
  cases dates with
  | nil => simp [processEvents] at hy
  | cons d rest =>
    rw [processEvents_head_eq c iS txs d rest P cum y hy, mkEventRow_desc]
    exact descFor_ne_cap _ _

/-- In Simple mode the capitalization branch is never taken: no row
carries the capitalization description, and every adjacent pair of rows
accumulates the cumulative total without any reset. -/
theorem processEvents_simple (c : Customer) (iS : Nat) (txs : List Tx)
    (hm : c.interestMethod = Method.Simple) (dates : List Nat) :
    ∀ P cum : ℚ,
    (∀ r ∈ processEvents c iS txs dates P cum,
      r.description ≠ "Quarterly Interest Capitalized") ∧
    List.Chain' (fun a b =>
      b.cumulativeInterest = a.cumulativeInterest + b.netInterest)
      (processEvents c iS txs dates P cum) := by
  induction dates with
  | nil => intro P cum; simp [processEvents]
  | cons d rest ih =>
    intro P cum
    have hc : ¬(d = endOfQuarter d ∧ iS ≤ d ∧
        c.interestMethod = Method.Compound ∧
        0 < (mkEventRow c txs d rest P cum).cumulativeInterest) := by
      simp [hm]
    rw [processEvents_cons_eq, if_neg hc]
    constructor
    · intro r hr
      rcases List.mem_cons.mp hr with hr | hr
      · rw [hr, mkEventRow_desc]; exact descFor_ne_cap _ _
      · exact (ih _ _).1 r hr
    · refine List.chain'_cons'.mpr ⟨?_, (ih _ _).2⟩
      intro y hy
      cases rest with
      | nil => simp [processEvents] at hy
      | cons d2 rest2 =>
        rw [processEvents_head_eq c iS txs d2 rest2 _ _ y hy, mkEventRow_cum]

/-- The day count in a year is positive. -/
theorem getDaysInYear_pos (y : Nat) : 0 < getDaysInYear y := by
  unfold getDaysInYear; split <;> norm_num

/-- With a non-negative rate, the clamped interest helper never returns
a negative amount. -/
theorem calculateSimpleInterest_nonneg (P days : ℚ) {rate : ℚ}
    (y : Nat) (hr : 0 ≤ rate) :
    0 ≤ calculateSimpleInterest P rate days y := by
  unfold calculateSimpleInterest
  split
  · exact le_refl 0
  · next h =>
    push_neg at h
    exact div_nonneg (mul_nonneg (mul_nonneg h.1.le hr) h.2.le)
      (le_of_lt (mul_pos (by norm_num) (getDaysInYear_pos y)))

/-- With a non-negative rate and a TDS rate in the unit range, the net
interest of every event row is non-negative. -/
theorem mkEventRow_net_nonneg (c : Customer) (txs : List Tx) (d : Nat)
    (rest : List Nat) (P cum : ℚ) (hr : 0 ≤ c.interestRate)
    (ht1 : c.tdsRate ≤ 100) :
    0 ≤ (mkEventRow c txs d rest P cum).netInterest := by
  have hI : 0 ≤ calculateSimpleInterest (P + paidOn txs d - repaidOn txs d)
      c.interestRate (periodDays d rest) (getYear d) :=
    calculateSimpleInterest_nonneg _ _ _ hr
  have hnet : (mkEventRow c txs d rest P cum).netInterest =
      calculateSimpleInterest (P + paidOn txs d - repaidOn txs d)
        c.interestRate (periodDays d rest) (getYear d) *
        (1 - c.tdsRate / 100) := by
    show calculateSimpleInterest (P + paidOn txs d - repaidOn txs d)
        c.interestRate (periodDays d rest) (getYear d) -
      calculateSimpleInterest (P + paidOn txs d - repaidOn txs d)
        c.interestRate (periodDays d rest) (getYear d) *
        (c.tdsRate / 100) = _
    ring
  rw [hnet]
  apply mul_nonneg hI
  have h100 : c.tdsRate / 100 ≤ 1 := by
    rw [div_le_one (by norm_num : (0:ℚ) < 100)]; exact ht1
  linarith

/-- Monotonicity invariant of the loop under non-negative rates: every
row adds a non-negative net interest, the cumulative total never
decreases between capitalizations, and the row after a capitalization
restarts the total from zero. -/
theorem processEvents_monotone (c : Customer) (iS : Nat) (txs : List Tx)
    (hr : 0 ≤ c.interestRate) (ht1 : c.tdsRate ≤ 100) (dates : List Nat) :
    ∀ P cum : ℚ,
    (∀ r ∈ processEvents c iS txs dates P cum, 0 ≤ r.netInterest) ∧
    List.Chain' (fun a b =>
      (a.description ≠ "Quarterly Interest Capitalized" →
        b.description ≠ "Quarterly Interest Capitalized" →
        a.cumulativeInterest ≤ b.cumulativeInterest) ∧
      (a.description = "Quarterly Interest Capitalized" →
        b.cumulativeInterest = b.netInterest))
      (processEvents c iS txs dates P cum) := by
  induction dates with
  | nil => intro P cum; simp [processEvents]
  | cons d rest ih =>
    intro P cum
    rw [processEvents_cons_eq]
    split
    · constructor
      · intro r hr'
        rcases List.mem_cons.mp hr' with h | h
        · rw [h]; exact mkEventRow_net_nonneg c txs d rest P cum hr ht1
        · rcases List.mem_cons.mp h with h | h
          · rw [h]; exact le_refl 0
          · exact (ih _ _).1 r h
      · refine List.chain'_cons.mpr ⟨⟨fun _ hb => absurd rfl hb, fun ha => ?_⟩, ?_⟩
        · exact absurd ha (by rw [mkEventRow_desc]; exact descFor_ne_cap _ _)
        · refine List.chain'_cons'.mpr ⟨?_, (ih _ _).2⟩
          intro y hy
          cases rest with
          | nil => simp [processEvents] at hy
          | cons d2 rest2 =>
            have hyeq := processEvents_head_eq c iS txs d2 rest2 _ 0 y hy
            refine ⟨fun ha => absurd rfl ha, fun _ => ?_⟩
            rw [hyeq, mkEventRow_cum, zero_add]
    · constructor
      · intro r hr'
        rcases List.mem_cons.mp hr' with h | h
        · rw [h]; exact mkEventRow_net_nonneg c txs d rest P cum hr ht1
        · exact (ih _ _).1 r h
      · refine List.chain'_cons'.mpr ⟨?_, (ih _ _).2⟩
        intro y hy
        cases rest with
        | nil => simp [processEvents] at hy
        | cons d2 rest2 =>
          have hyeq := processEvents_head_eq c iS txs d2 rest2 _ _ y hy
          constructor
          · intro _ _
            have hnn : 0 ≤ y.netInterest := by
              rw [hyeq]
              exact mkEventRow_net_nonneg c txs d2 rest2 _ _ hr ht1
            have hcum : y.cumulativeInterest =
                (mkEventRow c txs d (d2 :: rest2) P cum).cumulativeInterest +
                  y.netInterest := by
              rw [hyeq, mkEventRow_cum]
            rw [hcum]
            linarith
          · intro ha
            exact absurd ha
              (by rw [mkEventRow_desc]; exact descFor_ne_cap _ _)

/-- Non-negative transactions give a non-negative paid total per day. -/
theorem paidOn_nonneg (txs : List Tx) (d : Nat)
    (h : ∀ t ∈ txs, 0 ≤ t.paid) : 0 ≤ paidOn txs d := by
  apply List.sum_nonneg
  intro x hx
  simp only [List.mem_map] at hx
  obtain ⟨t, ht, rfl⟩ := hx
  exact h t (List.mem_of_mem_filter ht)

/-- Non-negative transactions give a non-negative repaid total per day. -/
theorem repaidOn_nonneg (txs : List Tx) (d : Nat)
    (h : ∀ t ∈ txs, 0 ≤ t.repaid) : 0 ≤ repaidOn txs d := by
  apply List.sum_nonneg
  intro x hx
  simp only [List.mem_map] at hx
  obtain ⟨t, ht, rfl⟩ := hx
  exact h t (List.mem_of_mem_filter ht)

/-- When both daily totals are non-negative and the description is
neither Deposit nor Repayment, both totals are zero. -/
theorem descFor_zero {p q : ℚ} (hp : 0 ≤ p) (hq : 0 ≤ q)
    (h1 : descFor p q ≠ "Deposit") (h2 : descFor p q ≠ "Repayment") :
    p = 0 ∧ q = 0 := by
  by_cases hp' : 0 < p
  · exact absurd (by unfold descFor; rw [if_pos hp']) h1
  · by_cases hq' : 0 < q
    · exact absurd (by unfold descFor; rw [if_neg hp', if_pos hq']) h2
    · exact ⟨le_antisymm (not_lt.mp hp') hp, le_antisymm (not_lt.mp hq') hq⟩

/-- Row-shape invariant of the loop under non-negative transaction
amounts: a row that is neither a Deposit nor a Repayment carries zero
paid and repaid amounts, and a capitalization row carries zero
interest, TDS and net interest. -/
theorem processEvents_rowShape (c : Customer) (iS : Nat) (txs : List Tx)
    (hp : ∀ t ∈ txs, 0 ≤ t.paid) (hq : ∀ t ∈ txs, 0 ≤ t.repaid)
    (dates : List Nat) : ∀ P cum : ℚ,
    ∀ r ∈ processEvents c iS txs dates P cum,
      (r.description ≠ "Deposit" ∧ r.description ≠ "Repayment" →
        r.paid = 0 ∧ r.repaid = 0) ∧
      (r.description = "Quarterly Interest Capitalized" →
        r.interest = 0 ∧ r.tds = 0 ∧ r.netInterest = 0) := by
  induction dates with
  | nil => intro P cum; simp [processEvents]
  | cons d rest ih =>
    intro P cum r hr
    have hEvent : ∀ hre : r = mkEventRow c txs d rest P cum,
        (r.description ≠ "Deposit" ∧ r.description ≠ "Repayment" →
          r.paid = 0 ∧ r.repaid = 0) ∧
        (r.description = "Quarterly Interest Capitalized" →
          r.interest = 0 ∧ r.tds = 0 ∧ r.netInterest = 0) := by
      intro hre
      constructor
      · intro hdesc
        rw [hre, mkEventRow_desc] at hdesc
        have hz := descFor_zero (paidOn_nonneg txs d hp)
          (repaidOn_nonneg txs d hq) hdesc.1 hdesc.2
        rw [hre]
        exact ⟨hz.1, hz.2⟩
      · intro hdesc
        rw [hre, mkEventRow_desc] at hdesc
        exact absurd hdesc (descFor_ne_cap _ _)
    rw [processEvents_cons_eq] at hr
    split at hr
    · rcases List.mem_cons.mp hr with h | h
      · exact hEvent h
      · rcases List.mem_cons.mp h with h | h
        · rw [h]
          exact ⟨fun _ => ⟨rfl, rfl⟩, fun _ => ⟨rfl, rfl, rfl⟩⟩
        · exact ih _ _ r h
    · rcases List.mem_cons.mp hr with h | h
      · exact hEvent h
      · exact ih _ _ r h

theorem mkCapRow_desc (d : Nat) (P cum : ℚ) :
    (mkCapRow d P cum).description = "Quarterly Interest Capitalized" := rfl

/-- Ordering invariant of the loop: over a strictly increasing event
list, row dates never decrease, and on a shared date no Deposit or
Repayment row ever follows a row of another kind. -/
theorem processEvents_dateChain (c : Customer) (iS : Nat) (txs : List Tx)
    (dates : List Nat) : ∀ P cum : ℚ, List.Chain' (· < ·) dates →
    List.Chain' (fun a b =>
      a.date ≤ b.date ∧
      (a.date = b.date →
        (b.description = "Deposit" ∨ b.description = "Repayment") →
        (a.description = "Deposit" ∨ a.description = "Repayment")))
      (processEvents c iS txs dates P cum) := by
  induction dates with
  | nil => intro P cum _; simp [processEvents]
  | cons d rest ih =>
    intro P cum hch
    have htail : List.Chain' (· < ·) rest := hch.tail
    have hHead : ∀ (P' cum' : ℚ) (y : Row),
        y ∈ (processEvents c iS txs rest P' cum').head? →
        d < y.date := by
      intro P' cum' y hy
      cases rest with
      | nil => simp [processEvents] at hy
      | cons d2 rest2 =>
        rw [processEvents_head_eq c iS txs d2 rest2 _ _ y hy,
          mkEventRow_date]
        exact (List.chain'_cons.mp hch).1
    rw [processEvents_cons_eq]
    split
    · refine List.chain'_cons.mpr ⟨⟨le_refl d, fun _ hb => ?_⟩, ?_⟩
      · rw [mkCapRow_desc] at hb
        rcases hb with hb | hb <;> exact absurd hb (by decide)
      · refine List.chain'_cons'.mpr ⟨?_, ih _ _ htail⟩
        intro y hy
        have hlt := hHead _ _ y hy
        exact ⟨le_of_lt hlt, fun heq => absurd heq (Nat.ne_of_lt hlt)⟩
    · refine List.chain'_cons'.mpr ⟨?_, ih _ _ htail⟩
      intro y hy
      have hlt := hHead _ _ y hy
      rw [mkEventRow_date]
      exact ⟨le_of_lt hlt, fun heq => absurd heq (Nat.ne_of_lt hlt)⟩

/-- A missing or unparseable start date yields the empty ledger
(line 39 of the source), with no error signal of any kind. -/
theorem generateLedger_nil_of_start_none (c : Customer) (txs : List Tx)
    (today : Nat) (h : c.iclStartDate = none) :
    generateLedger c txs today = [] := by
  unfold generateLedger
  rw [h]

/-- A zero interest rate is falsy in the source guard of line 39, so
the ledger is empty whatever the transactions are. -/
theorem generateLedger_nil_of_rate_zero (c : Customer) (txs : List Tx)
    (today : Nat) (h : c.interestRate = 0) :
    generateLedger c txs today = [] := by
  unfold generateLedger
  split
  · rfl
  · rw [if_pos (Or.inl h)]

/-- When filtering by the end date leaves no transaction, the ledger is
the plain empty list (lines 50-52), with no error signal. -/
theorem generateLedger_nil_of_filter_nil (c : Customer) (txs : List Tx)
    (today : Nat) (h : filterByEnd c txs = []) :
    generateLedger c txs today = [] := by
  unfold generateLedger
  split
  · rfl
  · split
    · rfl
    · rw [h]
      rfl

/-- Every ledger is either empty or a run of the accrual loop over the
deduplicated sorted event dates built from the sorted filtered
transactions. -/
theorem generateLedger_cases (c : Customer) (txs : List Tx)
    (today : Nat) :
    generateLedger c txs today = [] ∨
    ∃ iclStart t0 ts,
      c.iclStartDate = some iclStart ∧
      (filterByEnd c txs).insertionSort txLe = t0 :: ts ∧
      generateLedger c txs today =
        processEvents c iclStart (t0 :: ts)
          ((((t0 :: ts).map Tx.date) ++
            quarterEndsList t0.date (c.iclEndDate.getD today) ++
            (match c.iclEndDate with
             | some e => [e]
             | none => [])).dedup.insertionSort (· ≤ ·)) 0 0 := by
  unfold generateLedger
  split
  · exact Or.inl rfl
  · next iclStart hs =>
    split
    · exact Or.inl rfl
    · split
      · exact Or.inl rfl
      · next t0 ts hsort =>
        exact Or.inr ⟨iclStart, t0, ts, hs, hsort, rfl⟩

/-- With an end date set, the horizon never consults the clock, so the
ledger does not depend on the day the engine runs. -/
theorem generateLedger_today_irrelevant (c : Customer) (txs : List Tx)
    (t1 t2 : Nat) (e : Nat) (h : c.iclEndDate = some e) :
    generateLedger c txs t1 = generateLedger c txs t2 := by
  unfold generateLedger
  rw [h]
  simp only [Option.getD_some]

theorem gl_compound_eval :
    generateLedger cCompound [txDeposit] 739007 = [rowDep, rowStub, rowCap] := by
  have hq : quarterEndsList 738916 739007 = [739006] := by decide
  have he1 : endOfQuarter 738916 = 739006 := by decide
  have he2 : endOfQuarter 739006 = 739006 := by decide
  have hy1 : getYear 738916 = 2023 := by decide
  have hy2 : getYear 739006 = 2023 := by decide
  have h1 : generateLedger cCompound [txDeposit] 739007 =
      processEvents cCompound 738916 [txDeposit] [738916, 739006] 0 0 := by
    simp [generateLedger, cCompound, txDeposit, filterByEnd,
      List.insertionSort, List.orderedInsert, hq, he1]
  rw [h1]
  norm_num [processEvents, mkEventRow, mkCapRow, paidOn, repaidOn,
    periodDays, descFor, calculateSimpleInterest, getDaysInYear,
    he1, he2, hy1, hy2, cCompound, txDeposit, List.filter,
    rowDep, rowStub, rowCap, Row.mk.injEq]

theorem gl_compound_short_eval :
    generateLedger cCompound [txDeposit] 738946 = [rowDepShort] := by
  have hq : quarterEndsList 738916 738946 = [] := by decide
  have he1 : endOfQuarter 738916 = 739006 := by decide
  have hy1 : getYear 738916 = 2023 := by decide
  have h1 : generateLedger cCompound [txDeposit] 738946 =
      processEvents cCompound 738916 [txDeposit] [738916] 0 0 := by
    simp [generateLedger, cCompound, txDeposit, filterByEnd,
      List.insertionSort, List.orderedInsert, hq, he1]
  rw [h1]
  norm_num [processEvents, mkEventRow, mkCapRow, paidOn, repaidOn,
    periodDays, descFor, calculateSimpleInterest, getDaysInYear,
    he1, hy1, cCompound, txDeposit, List.filter, rowDepShort, Row.mk.injEq]

theorem gl_overRepay_eval :
    generateLedger cOverRepay [txRepay] 738835 = [rowRepay, rowRepayStub] := by
  have hq : quarterEndsList 738830 738835 = [] := by decide
  have he1 : endOfQuarter 738830 = 738915 := by decide
  have he2 : endOfQuarter 738835 = 738915 := by decide
  have hy1 : getYear 738830 = 2023 := by decide
  have hy2 : getYear 738835 = 2023 := by decide
  have h1 : generateLedger cOverRepay [txRepay] 738835 =
      processEvents cOverRepay 738826 [txRepay] [738830, 738835] 0 0 := by
    simp [generateLedger, cOverRepay, txRepay, filterByEnd,
      List.insertionSort, List.orderedInsert, hq, he1]
  rw [h1]
  norm_num [processEvents, mkEventRow, mkCapRow, paidOn, repaidOn,
    periodDays, descFor, calculateSimpleInterest, getDaysInYear,
    he1, he2, hy1, hy2, cOverRepay, txRepay, List.filter,
    rowRepay, rowRepayStub, Row.mk.injEq]

theorem gl_negRate_eval :
    generateLedger cNegRate [txHundred] 738835 = [rowNegOne, rowNegTwo] := by
  have hq : quarterEndsList 738830 738835 = [] := by decide
  have he1 : endOfQuarter 738830 = 738915 := by decide
  have he2 : endOfQuarter 738835 = 738915 := by decide
  have hy1 : getYear 738830 = 2023 := by decide
  have hy2 : getYear 738835 = 2023 := by decide
  have h1 : generateLedger cNegRate [txHundred] 738835 =
      processEvents cNegRate 738826 [txHundred] [738830, 738835] 0 0 := by
    simp [generateLedger, cNegRate, txHundred, filterByEnd,
      List.insertionSort, List.orderedInsert, hq, he1]
  rw [h1]
  norm_num [processEvents, mkEventRow, mkCapRow, paidOn, repaidOn,
    periodDays, descFor, calculateSimpleInterest, getDaysInYear,
    he1, he2, hy1, hy2, cNegRate, txHundred, List.filter,
    rowNegOne, rowNegTwo, Row.mk.injEq]

/-- C1: whenever the ledger contains a Capitalization row, its recorded
principal equals the principal of the row immediately before it plus
that row's cumulative net interest, and the row immediately after it
restarts the cumulative total from zero, so its cumulative total equals
its own net interest.  This holds for every input; Compound-method
inputs are the only ones that can produce Capitalization rows. -/
theorem claim_capitalization_conservation (c : Customer) (txs : List Tx)
    (today : Nat) (i : Nat)
    (hlen : i + 1 < (generateLedger c txs today).length)
    (hcap : ((generateLedger c txs today).getD (i + 1) default).description =
      "Quarterly Interest Capitalized") :
    ((generateLedger c txs today).getD (i + 1) default).principal =
      ((generateLedger c txs today).getD i default).principal +
        ((generateLedger c txs today).getD i default).cumulativeInterest ∧
    (∀ h2 : i + 2 < (generateLedger c txs today).length,
      ((generateLedger c txs today).getD (i + 2) default).cumulativeInterest =
        ((generateLedger c txs today).getD (i + 2) default).netInterest) := by
  have hch : List.Chain' (fun a b =>
      (b.description = "Quarterly Interest Capitalized" →
        b.principal = a.principal + a.cumulativeInterest) ∧
      (a.description = "Quarterly Interest Capitalized" →
        b.cumulativeInterest = b.netInterest))
      (generateLedger c txs today) := by
    rcases generateLedger_cases c txs today with h | ⟨iS, t0, ts, _, _, h⟩
    · rw [h]; exact List.chain'_nil
    · rw [h]; exact processEvents_chain_cap c iS (t0 :: ts) _ 0 0
  have hget := List.chain'_iff_get.mp hch
  constructor
  · have h1 := (hget i (by omega)).1
    rw [List.getD_eq_get _ _ hlen] at hcap
    rw [List.getD_eq_get _ _ hlen,
      List.getD_eq_get _ _ (by omega : i < (generateLedger c txs today).length)]
    exact h1 hcap
  · intro h2
    have hc2 := (hget (i + 1) (by omega)).2
    rw [List.getD_eq_get _ _ hlen] at hcap
    rw [List.getD_eq_get _ _ h2]
    exact hc2 hcap

/-- C1 witness: the Compound scenario starting 2023-04-01 with a
100000 deposit, horizon 2023-07-01, capitalizes on 2023-06-30 at row
index 2, and the capitalization row satisfies the conservation law. -/
theorem claim_capitalization_conservation_witness :
    ((generateLedger cCompound [txDeposit] 739007).getD 2 default).principal =
      ((generateLedger cCompound [txDeposit] 739007).getD 1 default).principal +
        ((generateLedger cCompound [txDeposit] 739007).getD 1 default).cumulativeInterest ∧
    (∀ _ : 1 + 2 < (generateLedger cCompound [txDeposit] 739007).length,
      ((generateLedger cCompound [txDeposit] 739007).getD 3 default).cumulativeInterest =
        ((generateLedger cCompound [txDeposit] 739007).getD 3 default).netInterest) :=
  claim_capitalization_conservation cCompound [txDeposit] 739007 1
    (by rw [gl_compound_eval]; norm_num)
    (by rw [gl_compound_eval]; rfl)

/-- C2 counterexample: at the period starting 2023-01-05 (5 days, year
2023) the running principal is -100 after an over-repayment; the engine
clamps the gross interest to 0, while the formula of the claim yields a
negative value, so the row's interest differs from the formula. -/
theorem claim_interest_formula_counterexample :
    ((generateLedger cOverRepay [txRepay] 738835).getD 0 default).interest ≠
      ((generateLedger cOverRepay [txRepay] 738835).getD 0 default).principal *
        cOverRepay.interestRate * 5 / (100 * getDaysInYear 2023) := by
  rw [gl_overRepay_eval]
  norm_num [rowRepay, cOverRepay, getDaysInYear, List.getD_cons_zero]

/-- C2 amended: the formula holds exactly when the running principal
and the day count are positive; otherwise the helper clamps the
interest to zero.  The two numeric examples of the spec hold as
stated. -/
theorem claim_interest_formula_amended :
    (∀ (P rate days : ℚ) (y : Nat), 0 < P → 0 < days →
      calculateSimpleInterest P rate days y =
        P * rate * days / (100 * getDaysInYear y)) ∧
    roundTo2 (calculateSimpleInterest 100000 12 30 2023) = 98630 / 100 ∧
    roundTo2 (calculateSimpleInterest 100000 12 30 2024) = 98361 / 100 := by
  refine ⟨fun P rate days y hP hd => ?_, ?_, ?_⟩
  · unfold calculateSimpleInterest
    rw [if_neg]
    push_neg
    exact ⟨hP, hd⟩
  · norm_num [calculateSimpleInterest, getDaysInYear, roundTo2]
  · norm_num [calculateSimpleInterest, getDaysInYear, roundTo2]

/-- C2 witness: the formula branch evaluated at the spec's example. -/
theorem claim_interest_formula_amended_witness :
    calculateSimpleInterest 100000 12 30 2023 =
      100000 * 12 * 30 / (100 * getDaysInYear 2023) :=
  claim_interest_formula_amended.1 100000 12 30 2023 (by norm_num) (by norm_num)

/-- C3 counterexample: with no end date the horizon is the wall-clock
day read inside the function (line 58), so the same terms and
transactions give different ledgers on different days: run on
2023-05-01 the ledger has one row, run on 2023-07-01 it has three. -/
theorem claim_determinism_counterexample :
    generateLedger cCompound [txDeposit] 738946 ≠
      generateLedger cCompound [txDeposit] 739007 := by
  intro hEq
  have hlen := congrArg List.length hEq
  rw [gl_compound_short_eval, gl_compound_eval] at hlen
  simp at hlen

/-- C3 amended: the engine is a pure function of terms, transactions
and the wall-clock day; whenever an end date is set the clock is never
consulted and any two run days give identical ledgers. -/
theorem claim_determinism_amended (c : Customer) (txs : List Tx)
    (t1 t2 e : Nat) (h : c.iclEndDate = some e) :
    generateLedger c txs t1 = generateLedger c txs t2 :=
  generateLedger_today_irrelevant c txs t1 t2 e h

/-- C3 witness: with the end date 2023-01-10 set, running on day 0 and
on 2023-01-10 gives the same ledger. -/
theorem claim_determinism_amended_witness :
    generateLedger cOverRepay [txRepay] 0 =
      generateLedger cOverRepay [txRepay] 738835 :=
  claim_determinism_amended cOverRepay [txRepay] 0 738835 738835 rfl

/-- C4 counterexample: a transaction dated after the end date filters
to an empty list and the engine returns the plain empty list, the very
value it returns for an input with no transactions at all, so no
distinguishable EmptyTimelineError signal exists. -/
theorem claim_empty_signal_counterexample :
    generateLedger cShortWindow [txAfterEnd] 738885 = [] ∧
    generateLedger cShortWindow [] 738885 = [] := by
  constructor
  · exact generateLedger_nil_of_filter_nil _ _ _ (by decide)
  · exact generateLedger_nil_of_filter_nil _ _ _ (by decide)

/-- C4 amended: when filtering by the end date removes every
transaction the engine returns the empty ledger with no error signal,
indistinguishable from any other empty result. -/
theorem claim_empty_timeline_amended (c : Customer) (txs : List Tx)
    (today : Nat) (h : filterByEnd c txs = []) :
    generateLedger c txs today = [] :=
  generateLedger_nil_of_filter_nil c txs today h

/-- C4 witness: the filtered-empty scenario evaluated concretely. -/
theorem claim_empty_timeline_amended_witness :
    filterByEnd cShortWindow [txAfterEnd] = [] ∧
    generateLedger cShortWindow [txAfterEnd] 738885 = [] :=
  ⟨by decide, claim_empty_timeline_amended cShortWindow [txAfterEnd] 738885 (by decide)⟩

/-- C5 counterexample: with a negative annual rate of -12 the engine
does not fail; it produces a two-row ledger, so no InvalidTermsError
exists and no fail-fast validation happens. -/
theorem claim_invalid_terms_counterexample :
    (generateLedger cNegRate [txHundred] 738835).length = 2 := by
  rw [gl_negRate_eval]
  rfl

/-- C5 amended: the engine performs no terms validation.  A missing or
unparseable start date silently yields the empty ledger, and a negative
rate is processed normally, producing rows with negative interest
rather than an error. -/
theorem claim_no_validation_amended :
    (∀ (c : Customer) (txs : List Tx) (today : Nat),
      c.iclStartDate = none → generateLedger c txs today = []) ∧
    ((generateLedger cNegRate [txHundred] 738835).getD 0 default).interest < 0 := by
  refine ⟨fun c txs today h => generateLedger_nil_of_start_none c txs today h, ?_⟩
  rw [gl_negRate_eval]
  norm_num [rowNegOne, List.getD_cons_zero]

/-- C5 witness: a missing start date gives the empty ledger. -/
theorem claim_no_validation_amended_witness :
    generateLedger cStartNone [txHundred] 738835 = [] :=
  claim_no_validation_amended.1 cStartNone [txHundred] 738835 rfl

/-- C6: in Simple mode no Capitalization row ever appears and the
cumulative net interest never resets: each row's cumulative total is
exactly the previous total plus the row's own net interest. -/
theorem claim_simple_no_reset (c : Customer) (txs : List Tx) (today : Nat)
    (hm : c.interestMethod = Method.Simple) :
    (∀ r ∈ generateLedger c txs today,
      r.description ≠ "Quarterly Interest Capitalized") ∧
    List.Chain' (fun a b =>
      b.cumulativeInterest = a.cumulativeInterest + b.netInterest)
      (generateLedger c txs today) := by
  rcases generateLedger_cases c txs today with h | ⟨iS, t0, ts, _, _, h⟩
  · rw [h]; exact ⟨by simp, List.chain'_nil⟩
  · rw [h]; exact processEvents_simple c iS (t0 :: ts) hm _ 0 0

/-- C6 witness: the Simple variant of the deposit scenario. -/
theorem claim_simple_no_reset_witness :
    (∀ r ∈ generateLedger cSimpleMode [txDeposit] 739007,
      r.description ≠ "Quarterly Interest Capitalized") ∧
    List.Chain' (fun a b =>
      b.cumulativeInterest = a.cumulativeInterest + b.netInterest)
      (generateLedger cSimpleMode [txDeposit] 739007) :=
  claim_simple_no_reset cSimpleMode [txDeposit] 739007 rfl

/-- C7: with a non-negative rate and a TDS rate in the range 0 to 100,
every row's net interest is non-negative; consequently the cumulative
total never decreases between capitalization resets, and the row after
a Capitalization row restarts the total from zero. -/
theorem claim_cumulative_monotone (c : Customer) (txs : List Tx)
    (today : Nat) (hr : 0 ≤ c.interestRate) (ht0 : 0 ≤ c.tdsRate)
    (ht1 : c.tdsRate ≤ 100) :
    (∀ r ∈ generateLedger c txs today, 0 ≤ r.netInterest) ∧
    List.Chain' (fun a b =>
      (a.description ≠ "Quarterly Interest Capitalized" →
        b.description ≠ "Quarterly Interest Capitalized" →
        a.cumulativeInterest ≤ b.cumulativeInterest) ∧
      (a.description = "Quarterly Interest Capitalized" →
        b.cumulativeInterest = b.netInterest))
      (generateLedger c txs today) := by
  rcases generateLedger_cases c txs today with h | ⟨iS, t0, ts, _, _, h⟩
  · rw [h]; exact ⟨by simp, List.chain'_nil⟩
  · rw [h]; exact processEvents_monotone c iS (t0 :: ts) hr ht1 _ 0 0

/-- C7 witness: the Compound deposit scenario at rate 12 and TDS 10. -/
theorem claim_cumulative_monotone_witness :
    (∀ r ∈ generateLedger cCompound [txDeposit] 739007, 0 ≤ r.netInterest) ∧
    List.Chain' (fun a b =>
      (a.description ≠ "Quarterly Interest Capitalized" →
        b.description ≠ "Quarterly Interest Capitalized" →
        a.cumulativeInterest ≤ b.cumulativeInterest) ∧
      (a.description = "Quarterly Interest Capitalized" →
        b.cumulativeInterest = b.netInterest))
      (generateLedger cCompound [txDeposit] 739007) :=
  claim_cumulative_monotone cCompound [txDeposit] 739007
    (by norm_num [cCompound]) (by norm_num [cCompound]) (by norm_num [cCompound])

/-- C8 counterexample: the opening Deposit row of the Compound scenario
carries a nonzero gross interest, because the engine merges the
transaction effect and the following period's accrual into one row, so
interest fields are not zero outside interest-only rows. -/
theorem claim_row_shape_counterexample :
    ((generateLedger cCompound [txDeposit] 739007).getD 0 default).description =
      "Deposit" ∧
    ((generateLedger cCompound [txDeposit] 739007).getD 0 default).interest ≠ 0 := by
  rw [gl_compound_eval]
  constructor
  · rfl
  · norm_num [rowDep, List.getD_cons_zero]

/-- C8 amended: each event emits one combined row, so a Deposit or
Repayment row also carries that period's interest figures; what does
hold is the converse direction: under non-negative transaction amounts
a row that is neither Deposit nor Repayment has zero paid and repaid
amounts, and a Capitalization row carries zero interest, TDS and net
interest. -/
theorem claim_row_shape_amended (c : Customer) (txs : List Tx)
    (today : Nat) (hpq : ∀ t ∈ txs, 0 ≤ t.paid ∧ 0 ≤ t.repaid) :
    ∀ r ∈ generateLedger c txs today,
      (r.description ≠ "Deposit" ∧ r.description ≠ "Repayment" →
        r.paid = 0 ∧ r.repaid = 0) ∧
      (r.description = "Quarterly Interest Capitalized" →
        r.interest = 0 ∧ r.tds = 0 ∧ r.netInterest = 0) := by
  rcases generateLedger_cases c txs today with h | ⟨iS, t0, ts, _, hsort, h⟩
  · rw [h]; simp
  · rw [h]
    have hmem : ∀ t ∈ (t0 :: ts), t ∈ txs := by
      intro t ht
      rw [← hsort] at ht
      have h2 := (List.perm_insertionSort txLe (filterByEnd c txs)).mem_iff.mp ht
      exact List.mem_of_mem_filter h2
    exact processEvents_rowShape c iS (t0 :: ts)
      (fun t ht => (hpq t (hmem t ht)).1)
      (fun t ht => (hpq t (hmem t ht)).2) _ 0 0

/-- C8 witness: in the Compound deposit scenario the capitalization row
of 2023-06-30 carries zero interest, TDS and net interest. -/
theorem claim_row_shape_amended_witness :
    rowCap.interest = 0 ∧ rowCap.tds = 0 ∧ rowCap.netInterest = 0 :=
  (claim_row_shape_amended cCompound [txDeposit] 739007
    (by intro t ht; rw [List.mem_singleton] at ht; rw [ht]
        exact ⟨by norm_num [txDeposit], by norm_num [txDeposit]⟩)
    rowCap (by rw [gl_compound_eval]; simp)).2 rfl

/-- C9: the ledger rows are ordered by date, and on equal dates no
Deposit or Repayment row ever comes after a row of another kind, which
is the adjacent-pair form of "transaction effects precede interest and
capitalization effects". -/
theorem claim_row_ordering (c : Customer) (txs : List Tx) (today : Nat) :
    List.Chain' (fun a b =>
      a.date ≤ b.date ∧
      (a.date = b.date →
        (b.description = "Deposit" ∨ b.description = "Repayment") →
        (a.description = "Deposit" ∨ a.description = "Repayment")))
      (generateLedger c txs today) := by
  rcases generateLedger_cases c txs today with h | ⟨iS, t0, ts, _, _, h⟩
  · rw [h]; exact List.chain'_nil
  · rw [h]
    apply processEvents_dateChain
    have hsorted : List.Sorted (· ≤ ·)
        (((((t0 :: ts).map Tx.date) ++
          quarterEndsList t0.date (c.iclEndDate.getD today) ++
          (match c.iclEndDate with
           | some e => [e]
           | none => [])).dedup).insertionSort (· ≤ ·)) :=
      List.sorted_insertionSort _ _
    have hnodup := (List.perm_insertionSort (· ≤ ·)
        ((((t0 :: ts).map Tx.date) ++
          quarterEndsList t0.date (c.iclEndDate.getD today) ++
          (match c.iclEndDate with
           | some e => [e]
           | none => [])).dedup)).nodup_iff.mpr (List.nodup_dedup _)
    exact (hsorted.lt_of_le hnodup).chain'

/-- C10: a zero interest rate is falsy in the guard of line 39, as is a
missing or unparseable start date, so the engine silently returns the
empty ledger with no error signal even when transactions exist. -/
theorem claim_zero_rate_silent_empty (c : Customer) (txs : List Tx)
    (today : Nat) (h : c.interestRate = 0 ∨ c.iclStartDate = none) :
    generateLedger c txs today = [] := by
  rcases h with h | h
  · exact generateLedger_nil_of_rate_zero c txs today h
  · exact generateLedger_nil_of_start_none c txs today h

/-- C10 witness: a zero-rate account with a real transaction that
survives filtering still produces an empty ledger. -/
theorem claim_zero_rate_silent_empty_witness :
    filterByEnd cZeroRate [txHundred] ≠ [] ∧
    generateLedger cZeroRate [txHundred] 738857 = [] :=
  ⟨by decide, claim_zero_rate_silent_empty cZeroRate [txHundred] 738857 (Or.inl rfl)⟩
